import Mathlib

/-!
Verification of the job interpretation and image geometry / metadata engine of
`bma_client.py` (the BMA client library).

The development shallowly embeds the relevant parts of the source:

* `get_exif` (EXIF tag grouping) over insertion-ordered association lists,
  mirroring Python `dict` semantics;
* `handle_image_conversion_job` (geometry resolution and the PIL calls it
  makes) over an explicit image-buffer type; the PIL library functions
  (`ImageOps.exif_transpose`, `ImageOps.fit`, `Image.thumbnail`,
  `Image.resize`) are not part of the repository, so they are modelled from
  the spec and from their documented algorithms, with the float aspect
  arithmetic of `Image.thumbnail` rendered as exact rational arithmetic;
* `handle_job` (job dispatch).

Fallible Python code (exceptions) is modelled with `Option` / `Except`.
-/

namespace BmaClientLib

/-! ### Python `dict` model

Python dicts preserve insertion order; assigning to an existing key updates
the value in place (keeping its position), assigning a fresh key appends.
We model them as association lists with exactly that insert operation. -/

/-- Python `d[k] = v` on an insertion-ordered dict: update in place if the key
is present, append otherwise. -/
def dictInsert (k v : String) : List (String × String) → List (String × String)
  | [] => [(k, v)]
  | (k2, v2) :: rest => if k2 = k then (k, v) :: rest else (k2, v2) :: dictInsert k v rest

/-- Python `d.get(k)` on the inner (tag → value) dict. -/
def dictLookup (k : String) : List (String × String) → Option String
  | [] => none
  | (k2, v2) :: rest => if k2 = k then some v2 else dictLookup k rest

/-- The grouped EXIF output of `get_exif`: a dict from IDF group name to a
dict from tag name to stringified value (`dict[str, dict[str, str]]`). -/
abbrev Grouped := List (String × List (String × String))

/-- The body of the `get_exif` loop updating `grouped`:
`if group not in grouped: grouped[group] = {}` followed by
`grouped[group][key] = str(value)` (lines 263-265 of `bma_client.py`). -/
def groupInsert (group key val : String) : Grouped → Grouped
  | [] => [(group, [(key, val)])]
  | (g, inner) :: rest =>
    if g = group then (g, dictInsert key val inner) :: rest
    else (g, inner) :: groupInsert group key val rest

/-- Lookup `result[group][tag]` in the grouped output. -/
def groupLookup (group key : String) (grouped : Grouped) : Option String :=
  match grouped with
  | [] => none
  | (g, inner) :: rest => if g = group then dictLookup key inner else groupLookup group key rest

/-! ### EXIF values

`exifread` yields `IfdTag` objects; `get_exif` only ever applies `str(...)`
to them. We model a value by enough structure to compute that stringification
(the claims use integer-valued tags such as `"Image ExifOffset" ↦ 266`). -/

/-- An EXIF tag value as handed over by `exifread`. -/
inductive ExifValue
  | intVal : Int → ExifValue
  | strVal : String → ExifValue
  | listVal : List Int → ExifValue
deriving DecidableEq

/-- Python `str(value)` for an `ExifValue`; list values print like
`[2, 3, 0, 0]`. -/
def ExifValue.toStr : ExifValue → String
  | .intVal n => toString n
  | .strVal s => s
  | .listVal l => "[" ++ String.intercalate ", " (l.map toString) ++ "]"

/-- Module constant `SKIP_EXIF_TAGS` (line 25 of `bma_client.py`); this is
also the (only) value of the configured `skip_exif_tags` attribute. -/
def SKIP_EXIF_TAGS : List String := ["JPEGThumbnail", "TIFFThumbnail", "Filename"]

/-! ### Python `str.split(" ")`

`tag.split(" ")` splits on every single space character, keeping empty
pieces, and returns `[""]` on the empty string. We implement it directly on
the character list so terms reduce well in the kernel. -/

/-- Accumulator worker for `pySplitSpace`. -/
def splitSpaceAux : List Char → List Char → List String
  | [], acc => [String.mk acc.reverse]
  | c :: cs, acc =>
    if c = ' ' then String.mk acc.reverse :: splitSpaceAux cs []
    else splitSpaceAux cs (c :: acc)

/-- Python `s.split(" ")` (explicit single-space separator). -/
def pySplitSpace (s : String) : List String := splitSpaceAux s.data []

/-! ### `get_exif` (lines 244-266 of `bma_client.py`)

The tags mapping of `exifread.process_file` is modelled as an
insertion-ordered association list, iterated left to right like
`tags.items()`. A `none` result models an uncaught exception: on a key whose
split has no second token, `group, *key = tag.split(" ")` leaves `key == []`
and `key = key[-1]` raises `IndexError`, aborting the call. -/

/-- Loop of `get_exif` over the remaining tag list, carrying the `grouped`
dict built so far. -/
def getExifAux (grouped : Grouped) : List (String × ExifValue) → Option Grouped
  | [] => some grouped
  | (tag, value) :: rest =>
    if tag ∈ SKIP_EXIF_TAGS then getExifAux grouped rest
    else
      match pySplitSpace tag with
      | [] => none -- unreachable: split always yields at least one piece
      | [_] => none -- `key = key[-1]` on `key == []`: IndexError
      | group :: k :: ks =>
        getExifAux (groupInsert group (ks.getLastD k) value.toStr grouped) rest

/-- `BmaClient.get_exif`, abstracted over the flat tag mapping that
`exifread.process_file` produced from the file. -/
def get_exif (tags : List (String × ExifValue)) : Option Grouped :=
  getExifAux [] tags

/-! ### Image buffers

A decoded PIL image: a pixel grid of positive dimensions plus the EXIF
orientation tag. A decoded image always has at least one pixel in each axis.
Orientation values `2`-`8` are the non-trivial EXIF orientations; `1` (or
any other value, including an absent tag, which PIL treats the same way)
means upright. -/

/-- A decoded image buffer (`PIL.Image.Image`): dimensions, pixel grid and
EXIF orientation tag. -/
structure Img where
  w : Nat
  h : Nat
  px : Nat → Nat → Nat
  orient : Nat
  wpos : 0 < w
  hpos : 0 < h

/-- Modelled from the spec: `ImageOps.exif_transpose` (PIL library code, not
part of this repository; spec §4.2 OrientationNormalizer). Applies the
inverse transform of the stored orientation (PIL uses `FLIP_LEFT_RIGHT`,
`ROTATE_180`, `FLIP_TOP_BOTTOM`, `TRANSPOSE`, `ROTATE_270`, `TRANSVERSE`,
`ROTATE_90` for orientations 2-8 respectively) and resets the orientation
tag to normal; any other orientation value (or an absent tag) yields the
image unchanged. -/
def exifTranspose (img : Img) : Img :=
  match img.orient with
  | 2 => ⟨img.w, img.h, fun x y => img.px (img.w - 1 - x) y, 1, img.wpos, img.hpos⟩
  | 3 => ⟨img.w, img.h, fun x y => img.px (img.w - 1 - x) (img.h - 1 - y), 1, img.wpos, img.hpos⟩
  | 4 => ⟨img.w, img.h, fun x y => img.px x (img.h - 1 - y), 1, img.wpos, img.hpos⟩
  | 5 => ⟨img.h, img.w, fun x y => img.px y x, 1, img.hpos, img.wpos⟩
  | 6 => ⟨img.h, img.w, fun x y => img.px y (img.h - 1 - x), 1, img.hpos, img.wpos⟩
  | 7 => ⟨img.h, img.w, fun x y => img.px (img.w - 1 - y) (img.h - 1 - x), 1, img.hpos, img.wpos⟩
  | 8 => ⟨img.h, img.w, fun x y => img.px (img.w - 1 - y) x, 1, img.hpos, img.wpos⟩
  | _ => img

/-- The exceptions that can escape `handle_image_conversion_job`, together
with `invalidDimension` from the spec's error taxonomy (§7). The code is
shown never to produce `invalidDimension` (claim C3). -/
inductive ConvError
  | decodeFailure
  | invalidDimension
  | zeroDivisionError
  | valueError
deriving DecidableEq

/-- Pixel resampling of a `w × h` source viewed at `tw × th`, modelled as
nearest-neighbour sampling. Downstream claims depend only on dimensions. -/
def samplePx (img : Img) (tw th : Nat) : Nat → Nat → Nat :=
  fun x y => img.px (x * img.w / tw) (y * img.h / th)

/-- Modelled from the spec: `PIL.Image.resize` (library code, not part of
this repository). Produces an image of exactly the requested size; a
non-positive requested dimension raises `ValueError`. -/
def pilResize (img : Img) (sz : Int × Int) : Except ConvError Img :=
  if h2 : 0 < sz.1 ∧ 0 < sz.2 then
    .ok ⟨sz.1.toNat, sz.2.toNat, samplePx img sz.1.toNat sz.2.toNat, img.orient,
      by omega, by omega⟩
  else .error .valueError

/-- Python `abs` on an exact rational. -/
def ratAbs (q : ℚ) : ℚ := if q < 0 then -q else q

/-- Python `min(math.floor(q), math.ceil(q), key=key)` followed by
`max(..., 1)`: the inner helper `round_aspect` of `PIL.Image.thumbnail`;
the candidates handed to `key` are integers (ties pick the first argument,
i.e. the floor). -/
def roundAspect (q : ℚ) (key : Int → ℚ) : Int :=
  max (if key (Rat.floor q) ≤ key (Rat.ceil q) then Rat.floor q else Rat.ceil q) 1

/-- Modelled from the spec: `PIL.Image.thumbnail` (library code, not part of
this repository; spec §4.3 "bounded proportional scale"). If the box already
contains the image, nothing happens; a box height of `0` raises
`ZeroDivisionError` at `x / y`; otherwise the axis-constrained size with
(approximately) the source aspect ratio is computed and the image is resized
to it when that differs from the current size. PIL computes the aspect
quotients in floating point; they are modelled here as exact rationals. -/
def pilThumbnail (img : Img) (sz : Int × Int) : Except ConvError Img :=
  if (img.w : Int) ≤ sz.1 ∧ (img.h : Int) ≤ sz.2 then .ok img
  else if sz.2 = 0 then .error .zeroDivisionError
  else
    -- `aspect = self.width / self.height`; the test `x / y >= aspect` is
    -- `aspect ≤ x / y`
    if Rat.divInt img.w img.h ≤ Rat.divInt sz.1 sz.2 then
      -- `x = round_aspect(y * aspect, key=lambda n: abs(aspect - n / y))`;
      -- as exact rationals, `y * aspect = (y * w) / h` and
      -- `aspect - n / y = (w * y - n * h) / (h * y)`
      let xr := roundAspect (Rat.divInt (sz.2 * img.w) img.h)
        (fun n => ratAbs (Rat.divInt (img.w * sz.2 - n * img.h) (img.h * sz.2)))
      if (img.w : Int) = xr ∧ (img.h : Int) = sz.2 then .ok img
      else pilResize img (xr, sz.2)
    else
      -- `y = round_aspect(x / aspect, key=lambda n: 0 if n == 0 else abs(aspect - x / n))`;
      -- as exact rationals, `x / aspect = (x * h) / w` and
      -- `aspect - x / n = (w * n - x * h) / (h * n)`
      let yr := roundAspect (Rat.divInt (sz.1 * img.h) img.w)
        (fun n => if n = 0 then 0
          else ratAbs (Rat.divInt (img.w * n - sz.1 * img.h) (img.h * n)))
      if (img.w : Int) = sz.1 ∧ (img.h : Int) = yr then .ok img
      else pilResize img (sz.1, yr)

/-- Modelled from the spec: `ImageOps.fit` (library code, not part of this
repository; spec §4.3 "crop-fit"). Computes a centered crop window with the
output ratio (`output_ratio = size[0] / size[1]` raises `ZeroDivisionError`
when `size[1] == 0`) and resizes it to exactly the requested size; the crop
window only affects pixel content, modelled by the sampling function. -/
def pilFit (img : Img) (sz : Int × Int) : Except ConvError Img :=
  if sz.2 = 0 then .error .zeroDivisionError
  else pilResize img sz

/-! ### `handle_image_conversion_job` (lines 179-222 of `bma_client.py`) -/

/-- The conversion-job fields consumed by `handle_image_conversion_job`.
Numerator and denominator are `0` when the job carries no usable aspect
ratio: Python tests them for truthiness, so `None`, a missing value and `0`
behave alike. -/
structure ConversionJob where
  width : Int
  aspect_ratio_numerator : Nat
  aspect_ratio_denominator : Nat

/-- Size and ratio calculation of `handle_image_conversion_job` (lines
199-209), given the post-transpose image dimensions `imgW × imgH`:
with a truthy aspect ratio, `height = math.floor(width / Fraction(num, den))`,
otherwise `height = math.floor(width / Fraction(imgW, imgH))`; the result is
`size = (math.floor(width), math.floor(height))`. `math.floor` on an exact
`Fraction` is floor division, i.e. `Int.fdiv`. -/
def resolveSize (job : ConversionJob) (imgW imgH : Nat) : Int × Int :=
  if job.aspect_ratio_numerator != 0 && job.aspect_ratio_denominator != 0 then
    (job.width, Int.fdiv (job.width * job.aspect_ratio_denominator) job.aspect_ratio_numerator)
  else
    (job.width, Int.fdiv (job.width * imgH) imgW)

/-- `BmaClient.handle_image_conversion_job`. The source file argument is
`some img` when `Image.open` can decode it to `img` and `none` when decoding
raises. Steps, in source order: decode (line 184), orientation
normalisation (line 191), EXIF read (line 196, geometry-irrelevant and the
returned metadata is not modelled), size calculation (lines 199-209), then
`ImageOps.fit` for a truthy ratio and `Image.thumbnail` otherwise (lines
215-218). The `if ratio:` test on line 215 is equivalent to the truthiness
test on line 201 because `Fraction(n, d)` with truthy `n` is nonzero. -/
def handle_image_conversion_job (job : ConversionJob) (orig : Option Img) :
    Except ConvError Img :=
  match orig with
  | none => .error .decodeFailure
  | some image =>
    let image := exifTranspose image
    let size := resolveSize job image.w image.h
    if job.aspect_ratio_numerator != 0 && job.aspect_ratio_denominator != 0 then
      pilFit image size
    else
      pilThumbnail image size

/-- Dimensions of the image a conversion produced, `none` on an exception. -/
def outSize : Except ConvError Img → Option (Nat × Nat)
  | .ok i => some (i.w, i.h)
  | .error _ => none

/-! ### `handle_job` (lines 170-177 of `bma_client.py`) -/

/-- The fields of a job dict consumed by `handle_job`: the dispatch string
plus the conversion parameters used when the job is a conversion job. -/
structure JobDescriptor where
  job_type : String
  conv : ConversionJob

/-- Outcome of `handle_job`: the value of the branch taken.
`unsupported` is the fall-through path (log `"Unsupported job type ..."` and
`return None`). -/
inductive HandleJobResult
  | convResult : Except ConvError Img → HandleJobResult
  | exifResult : Option Grouped → HandleJobResult
  | unsupported : HandleJobResult

/-- `BmaClient.handle_job`, abstracted over the decoded source image (for
conversion jobs) and the flat EXIF tag mapping read from the file (for
extraction jobs). -/
def handle_job (job : JobDescriptor) (orig : Option Img)
    (tags : List (String × ExifValue)) : HandleJobResult :=
  if job.job_type = "ImageConversionJob" then
    .convResult (handle_image_conversion_job job.conv orig)
  else if job.job_type = "ImageExifExtractionJob" then
    .exifResult (get_exif tags)
  else
    .unsupported

/-! ### Concrete images for witnesses and counterexamples -/

/-- A 10 × 10 all-black upright image. -/
def img10 : Img := ⟨10, 10, fun _ _ => 0, 1, by omega, by omega⟩

/-- A 4000 × 3000 all-black upright image (the spec's example source). -/
def img4k : Img := ⟨4000, 3000, fun _ _ => 0, 1, by omega, by omega⟩

/-! ## Helper lemmas -/

theorem dictLookup_dictInsert (k v : String) (inner : List (String × String)) :
    dictLookup k (dictInsert k v inner) = some v := by
  induction inner with
  | nil => simp [dictInsert, dictLookup]
  | cons hd tl ih =>
    obtain ⟨k2, v2⟩ := hd
    by_cases hk : k2 = k
    · simp [dictInsert, dictLookup, hk]
    · simp [dictInsert, dictLookup, hk, ih]

theorem groupLookup_groupInsert (g t v : String) (gr : Grouped) :
    groupLookup g t (groupInsert g t v gr) = some v := by
  induction gr with
  | nil => simp [groupInsert, groupLookup, dictLookup]
  | cons hd tl ih =>
    obtain ⟨g2, inner⟩ := hd
    by_cases hg : g2 = g
    · simp [groupInsert, groupLookup, hg, dictLookup_dictInsert]
    · simp [groupInsert, groupLookup, hg, ih]

theorem getExifAux_skip_middle (k : String) (hk : k ∈ SKIP_EXIF_TAGS) (v : ExifValue)
    (pre post : List (String × ExifValue)) (grouped : Grouped) :
    getExifAux grouped (pre ++ (k, v) :: post) = getExifAux grouped (pre ++ post) := by
  induction pre generalizing grouped with
  | nil => simp [getExifAux, hk]
  | cons hd tl ih =>
    obtain ⟨t, w⟩ := hd
    by_cases ht : t ∈ SKIP_EXIF_TAGS
    · simp only [List.cons_append, getExifAux, if_pos ht]
      exact ih grouped
    · simp only [List.cons_append, getExifAux, if_neg ht]
      cases hs : pySplitSpace t with
      | nil => rfl
      | cons a tl2 =>
        cases tl2 with
        | nil => rfl
        | cons b tl3 => exact ih _

theorem getExifAux_malformed (tag : String) (v : ExifValue)
    (hskip : tag ∉ SKIP_EXIF_TAGS) (hbad : (pySplitSpace tag).length = 1)
    (tags : List (String × ExifValue)) (hmem : (tag, v) ∈ tags) (grouped : Grouped) :
    getExifAux grouped tags = none := by
  obtain ⟨a, ha⟩ : ∃ a, pySplitSpace tag = [a] := by
    cases hs : pySplitSpace tag with
    | nil => rw [hs] at hbad; simp at hbad
    | cons x tl =>
      cases tl with
      | nil => exact ⟨x, rfl⟩
      | cons y tl2 => rw [hs] at hbad; simp at hbad
  induction tags generalizing grouped with
  | nil => simp at hmem
  | cons hd tl ih =>
    obtain ⟨t, w⟩ := hd
    rcases List.mem_cons.mp hmem with heq | hmem2
    · obtain ⟨ht, hw⟩ := Prod.mk.injEq .. ▸ heq
      subst ht
      simp only [getExifAux, if_neg hskip, ha]
    · by_cases ht : t ∈ SKIP_EXIF_TAGS
      · simp only [getExifAux, if_pos ht]
        exact ih hmem2 grouped
      · simp only [getExifAux, if_neg ht]
        cases hs : pySplitSpace t with
        | nil => rfl
        | cons x tl2 =>
          cases tl2 with
          | nil => rfl
          | cons y tl3 => exact ih hmem2 _

/-! ## Claims -/

/-- C4 counterexample: one malformed (single-token) key does **not** leave the
remaining well-formed keys grouped — the whole extraction aborts (the model's
`none`, an uncaught `IndexError` from `key[-1]` on an empty list), so the
well-formed key `"Image ExifOffset"` produces no output either. -/
theorem c4_counterexample :
    get_exif [("Foo", ExifValue.intVal 1), ("Image ExifOffset", ExifValue.intVal 266)] = none := by
  decide

/-- C4 (amended): a tag set containing a non-skipped key with a single token
(missing the tag token) makes `get_exif` abort the whole extraction with an
uncaught `IndexError`: no grouped output at all is produced, rather than the
malformed key being logged, skipped and the remaining keys still grouped. -/
theorem c4_malformed_key_aborts_extraction (tags : List (String × ExifValue))
    (tag : String) (v : ExifValue) (hmem : (tag, v) ∈ tags)
    (hskip : tag ∉ SKIP_EXIF_TAGS) (hbad : (pySplitSpace tag).length = 1) :
    get_exif tags = none :=
  getExifAux_malformed tag v hskip hbad tags hmem []

/-- C4 witness: the amended theorem applied to the concrete tag set
`[("Foo", 1)]`. -/
theorem c4_malformed_key_aborts_extraction_witness :
    get_exif [("Foo", ExifValue.intVal 1)] = none :=
  c4_malformed_key_aborts_extraction _ "Foo" (ExifValue.intVal 1)
    (by decide) (by decide) (by decide)

/-- C5: a tag key in the configured skip-list (`SKIP_EXIF_TAGS`) is dropped
before grouping: removing its entry from the flat tag set, wherever it
occurs, does not change the output of `get_exif` at all, so nothing derived
from a skip-listed key ever appears under any group of the result. -/
theorem c5_skip_tags_never_grouped (k : String) (hk : k ∈ SKIP_EXIF_TAGS)
    (v : ExifValue) (pre post : List (String × ExifValue)) :
    get_exif (pre ++ (k, v) :: post) = get_exif (pre ++ post) :=
  getExifAux_skip_middle k hk v pre post []

/-- C5 witness: the theorem applied to the skip-listed key `"Filename"`
following a normal key. -/
theorem c5_skip_tags_never_grouped_witness :
    get_exif [("Image ExifOffset", ExifValue.intVal 266), ("Filename", ExifValue.strVal "x")] =
      get_exif [("Image ExifOffset", ExifValue.intVal 266)] :=
  c5_skip_tags_never_grouped "Filename" (by decide) (ExifValue.strVal "x")
    [("Image ExifOffset", ExifValue.intVal 266)] []

/-- C6: processing a non-skipped key that splits into two or more
space-separated tokens inserts the stringified value under the first token
as group and the last token as tag, and the value is then found at
`result[group][tag]`. -/
theorem c6_two_token_key_grouped (grouped : Grouped) (tag g k : String)
    (ks : List String) (v : ExifValue)
    (hskip : tag ∉ SKIP_EXIF_TAGS) (hsplit : pySplitSpace tag = g :: k :: ks) :
    getExifAux grouped [(tag, v)] = some (groupInsert g (ks.getLastD k) v.toStr grouped) ∧
      groupLookup g (ks.getLastD k) (groupInsert g (ks.getLastD k) v.toStr grouped) =
        some v.toStr := by
  constructor
  · simp only [getExifAux, if_neg hskip, hsplit]
  · exact groupLookup_groupInsert ..

/-- C6 witness: the entry `"Image ExifOffset" ↦ 266` yields
`result["Image"]["ExifOffset"] == "266"`. -/
theorem c6_two_token_key_grouped_witness :
    getExifAux [] [("Image ExifOffset", ExifValue.intVal 266)] =
        some [("Image", [("ExifOffset", "266")])] ∧
      groupLookup "Image" "ExifOffset" [("Image", [("ExifOffset", "266")])] = some "266" :=
  c6_two_token_key_grouped [] "Image ExifOffset" "Image" "ExifOffset" []
    (ExifValue.intVal 266) (by decide) (by decide)

/-- C10: two distinct non-skipped keys sharing their first and last tokens
collapse to the single slot `result[group][tag]`; the later value silently
overwrites the earlier one, and the output holds one entry for the two
input keys. -/
theorem c10_same_first_last_token_collapse (k1 k2 g t r1 r2 : String)
    (rs1 rs2 : List String) (v1 v2 : ExifValue)
    (h1 : k1 ∉ SKIP_EXIF_TAGS) (h2 : k2 ∉ SKIP_EXIF_TAGS) (hne : k1 ≠ k2)
    (hs1 : pySplitSpace k1 = g :: r1 :: rs1) (hs2 : pySplitSpace k2 = g :: r2 :: rs2)
    (ht1 : rs1.getLastD r1 = t) (ht2 : rs2.getLastD r2 = t) :
    get_exif [(k1, v1), (k2, v2)] = some [(g, [(t, v2.toStr)])] := by
  subst ht1
  have ht3 : rs2.getLast?.getD r2 = rs1.getLast?.getD r1 := by
    simpa [List.getLastD_eq_getLast?] using ht2
  simp [get_exif, getExifAux, if_neg h1, if_neg h2, hs1, hs2,
    groupInsert, dictInsert, ht3]

/-- C10 witness: `"Image X" ↦ 1` then `"Image A X" ↦ 2` yield the single
entry `result["Image"]["X"] == "2"`. -/
theorem c10_same_first_last_token_collapse_witness :
    get_exif [("Image X", ExifValue.intVal 1), ("Image A X", ExifValue.intVal 2)] =
      some [("Image", [("X", "2")])] :=
  c10_same_first_last_token_collapse "Image X" "Image A X" "Image" "X" "X" "A"
    [] ["X"] (ExifValue.intVal 1) (ExifValue.intVal 2)
    (by decide) (by decide) (by decide) (by decide) (by decide) (by decide) (by decide)

/-- C7: orientation normalisation is idempotent — the normalised buffer's
orientation tag is reset to normal, and a buffer with a normal (or absent)
tag is returned unchanged, so a second application is a no-op. -/
theorem c7_exifTranspose_idempotent (b : Img) :
    exifTranspose (exifTranspose b) = exifTranspose b := by
  obtain ⟨w, h, px, o, hw, hh⟩ := b
  match o with
  | 0 => rfl
  | 1 => rfl
  | 2 => rfl
  | 3 => rfl
  | 4 => rfl
  | 5 => rfl
  | 6 => rfl
  | 7 => rfl
  | 8 => rfl
  | (n + 9) => rfl

/-- C9: a job whose `job_type` is neither `"ImageConversionJob"` nor
`"ImageExifExtractionJob"` is reported as unsupported (the code logs the
error and returns `None` instead of raising): no conversion result and no
metadata mapping is produced, and the worker does not fail. -/
theorem c9_unknown_job_type_unsupported (job : JobDescriptor) (orig : Option Img)
    (tags : List (String × ExifValue))
    (h1 : job.job_type ≠ "ImageConversionJob")
    (h2 : job.job_type ≠ "ImageExifExtractionJob") :
    handle_job job orig tags = HandleJobResult.unsupported := by
  simp [handle_job, h1, h2]

/-- C9 witness: the theorem applied to a `"FooJob"` job. -/
theorem c9_unknown_job_type_unsupported_witness :
    handle_job ⟨"FooJob", ⟨100, 0, 0⟩⟩ none [] = HandleJobResult.unsupported :=
  c9_unknown_job_type_unsupported ⟨"FooJob", ⟨100, 0, 0⟩⟩ none []
    (by decide) (by decide)

theorem fdiv_natCast_eq_floor (a : Int) (b : Nat) :
    Int.fdiv a (b : Int) = ⌊(a : ℚ) / (b : ℚ)⌋ := by
  rw [Int.fdiv_eq_ediv a (Int.natCast_nonneg b), ← Rat.floor_intCast_div_natCast a b]

/-- C1: with a positive width `W` the resolved target size is
`(W, floor(W * d / n))` when a custom aspect ratio with positive numerator
`n` and denominator `d` is supplied, and `(W, floor(W * h0 / w0))` when no
aspect ratio is supplied, where `w0 × h0` is the orientation-normalised
natural size. The floors are exact rational floors — `math.floor` on a
`Fraction` — never floating point. -/
theorem c1_resolved_size (W : Int) (n d w0 h0 : Nat)
    (hW : 0 < W) (hw0 : 0 < w0) (hh0 : 0 < h0) :
    (0 < n → 0 < d →
      resolveSize ⟨W, n, d⟩ w0 h0 = (W, ⌊(W : ℚ) * (d : ℚ) / (n : ℚ)⌋)) ∧
    resolveSize ⟨W, 0, 0⟩ w0 h0 = (W, ⌊(W : ℚ) * (h0 : ℚ) / (w0 : ℚ)⌋) := by
  constructor
  · intro hn hd
    have hb : ((n != 0) && (d != 0)) = true := by
      simp only [Bool.and_eq_true, bne_iff_ne, ne_eq]
      omega
    simp only [resolveSize, hb, if_true]
    have : Int.fdiv (W * (d : Int)) (n : Int) = ⌊(W : ℚ) * (d : ℚ) / (n : ℚ)⌋ := by
      rw [fdiv_natCast_eq_floor]
      congr 2
      push_cast
      ring
    rw [this]
  · have hb : ((0 != 0) && (0 != 0)) = false := by decide
    simp only [resolveSize, hb, Bool.false_eq_true, if_false]
    have : Int.fdiv (W * (h0 : Int)) (w0 : Int) = ⌊(W : ℚ) * (h0 : ℚ) / (w0 : ℚ)⌋ := by
      rw [fdiv_natCast_eq_floor]
      congr 2
      push_cast
      ring
    rw [this]

/-- C1 witness: `W = 1024`, `n = 16`, `d = 9` resolves to `(1024, 576)`, and
the spec's natural-ratio example `4000 × 3000`, `W = 800` resolves to
`(800, 600)`. -/
theorem c1_resolved_size_witness :
    resolveSize ⟨1024, 16, 9⟩ 4000 3000 = (1024, 576) ∧
      resolveSize ⟨800, 0, 0⟩ 4000 3000 = (800, 600) := by
  have h1 := (c1_resolved_size 1024 16 9 4000 3000 (by decide) (by decide) (by decide)).1
    (by decide) (by decide)
  have h2 := (c1_resolved_size 800 16 9 4000 3000 (by decide) (by decide) (by decide)).2
  rw [h1, h2]
  norm_num

theorem pilResize_ne_invalid (img : Img) (sz : Int × Int) :
    pilResize img sz ≠ .error .invalidDimension := by
  unfold pilResize
  split <;> simp

theorem pilFit_ne_invalid (img : Img) (sz : Int × Int) :
    pilFit img sz ≠ .error .invalidDimension := by
  unfold pilFit
  split
  · simp
  · exact pilResize_ne_invalid _ _

theorem pilThumbnail_ne_invalid (img : Img) (sz : Int × Int) :
    pilThumbnail img sz ≠ .error .invalidDimension := by
  unfold pilThumbnail
  dsimp only
  split
  · simp
  · split
    · simp
    · split
      · split
        · simp
        · exact pilResize_ne_invalid _ _
      · split
        · simp
        · exact pilResize_ne_invalid _ _

/-- C3 counterexample: a conversion job with `W = 0` and aspect ratio `16/9`
on a source that fails to decode. The claim would have the job rejected with
`InvalidDimension` before decode; instead the code opens the image first, so
the decode failure surfaces and no `InvalidDimension` rejection exists. -/
theorem c3_counterexample :
    handle_image_conversion_job ⟨0, 16, 9⟩ none = .error .decodeFailure ∧
      ConvError.decodeFailure ≠ ConvError.invalidDimension :=
  ⟨rfl, by decide⟩

/-- C3 (amended): `handle_image_conversion_job` performs no width
validation at all: no job — whatever its width — is ever rejected with
`InvalidDimension`, and the source image is decoded before anything else,
so an undecodable source yields `DecodeFailure` even when `width ≤ 0`. -/
theorem c3_no_width_validation (job : ConversionJob) (orig : Option Img) :
    handle_image_conversion_job job orig ≠ .error .invalidDimension ∧
      (orig = none → handle_image_conversion_job job orig = .error .decodeFailure) := by
  cases orig with
  | none => exact ⟨by simp [handle_image_conversion_job], fun _ => rfl⟩
  | some img =>
    refine ⟨?_, fun hn => absurd hn (Option.some_ne_none img)⟩
    simp only [handle_image_conversion_job]
    split
    · exact pilFit_ne_invalid _ _
    · exact pilThumbnail_ne_invalid _ _

/-- C3 witness: the amended theorem applied to the job with `W = 0` and
ratio `16/9` on an undecodable source. -/
theorem c3_no_width_validation_witness :
    handle_image_conversion_job ⟨0, 16, 9⟩ none ≠ .error .invalidDimension ∧
      handle_image_conversion_job ⟨0, 16, 9⟩ none = .error .decodeFailure :=
  ⟨(c3_no_width_validation ⟨0, 16, 9⟩ none).1,
    (c3_no_width_validation ⟨0, 16, 9⟩ none).2 rfl⟩

/-- C2 counterexample: natural-ratio (thumbnail) mode does **not** always
produce the requested width. A 10 × 10 source with requested width `W = 100`
resolves to the box `(100, 100)`; `Image.thumbnail` never upscales, so the
output stays 10 × 10 and its width `10 ≠ 100`. -/
theorem c2_counterexample :
    outSize (handle_image_conversion_job ⟨100, 0, 0⟩ (some img10)) = some (10, 10) ∧
      (10 : Nat) ≠ 100 :=
  ⟨by decide, by decide⟩

theorem neg_ediv_of_not_dvd {n d : Int} (hd : 0 < d) (h : ¬ d ∣ n) :
    (-n) / d = -(n / d) - 1 := by
  have h1 : n % d + d * (n / d) = n := Int.emod_add_ediv n d
  have h2 : 0 ≤ n % d := Int.emod_nonneg n (Int.ne_of_gt hd)
  have h3 : n % d < d := Int.emod_lt_of_pos n hd
  have h4 : n % d ≠ 0 := fun hz => h (Int.dvd_iff_emod_eq_zero.mpr hz)
  exact ((@Int.ediv_emod_unique (-n) d (d - n % d) (-(n / d) - 1) hd).mpr
    ⟨by linear_combination -h1, by omega, by omega⟩).1

theorem ratFloor_eq (q : ℚ) : Rat.floor q = ⌊q⌋ :=
  (Rat.floor_def' q).trans Rat.floor_def.symm

theorem ratCeil_eq (q : ℚ) : Rat.ceil q = ⌈q⌉ := by
  have hden : (0 : Int) < q.den := by exact_mod_cast q.pos
  rw [show (⌈q⌉ : ℤ) = -⌊-q⌋ by rw [Int.floor_neg, neg_neg], Rat.floor_def,
    Rat.neg_num, Rat.neg_den]
  unfold Rat.ceil
  by_cases h1 : q.den = 1
  · rw [if_pos h1, h1]
    simp
  · rw [if_neg h1]
    have hndvd : ¬ ((q.den : Int) ∣ q.num) := by
      intro hdvd
      have hdvd2 : q.den ∣ q.num.natAbs :=
        Int.natCast_dvd_natCast.mp (Int.dvd_natAbs.mpr hdvd)
      exact h1 (Nat.Coprime.eq_one_of_dvd q.reduced.symm hdvd2)
    rw [neg_ediv_of_not_dvd hden hndvd]
    ring

theorem roundAspect_le (q : ℚ) (key : Int → ℚ) (c : Int) (hc : 0 < c)
    (hq : q ≤ (c : ℚ)) : roundAspect q key ≤ c := by
  have hce : Rat.ceil q ≤ c := by
    rw [ratCeil_eq]
    exact Int.ceil_le.mpr hq
  have hfl : Rat.floor q ≤ c := by
    rw [ratFloor_eq]
    exact le_trans (Int.floor_le_ceil q) (ratCeil_eq q ▸ hce)
  unfold roundAspect
  apply max_le _ hc
  split
  · exact hfl
  · exact hce

theorem roundAspect_pos (q : ℚ) (key : Int → ℚ) : 0 < roundAspect q key :=
  lt_of_lt_of_le one_pos (le_max_right _ _)

theorem pilResize_outSize (img : Img) (sz : Int × Int) (w h : Nat)
    (hout : outSize (pilResize img sz) = some (w, h)) :
    (w : Int) = sz.1 ∧ (h : Int) = sz.2 := by
  unfold pilResize at hout
  split at hout
  case isTrue hpos =>
    simp only [outSize, Option.some.injEq, Prod.mk.injEq] at hout
    obtain ⟨hw, hh⟩ := hout
    subst hw hh
    exact ⟨Int.toNat_of_nonneg (le_of_lt hpos.1), Int.toNat_of_nonneg (le_of_lt hpos.2)⟩
  case isFalse => simp [outSize] at hout

theorem pilFit_outSize (img : Img) (sz : Int × Int) (w h : Nat)
    (hout : outSize (pilFit img sz) = some (w, h)) :
    (w : Int) = sz.1 ∧ (h : Int) = sz.2 := by
  unfold pilFit at hout
  split at hout
  · simp [outSize] at hout
  · exact pilResize_outSize _ _ _ _ hout

/-- Size bounds of `Image.thumbnail` on the natural-mode box
`(W, floor(W * h / w))`: the produced dimensions never exceed the source's,
and the produced width never exceeds the requested `W`. -/
theorem pilThumbnail_natural_bounds (I : Img) (W : Int) (hW : 0 < W) (w h : Nat)
    (hout : outSize (pilThumbnail I (W, Int.fdiv (W * I.h) I.w)) = some (w, h)) :
    w ≤ I.w ∧ h ≤ I.h ∧ (w : Int) ≤ W := by
  set H := Int.fdiv (W * I.h) I.w with hHdef
  have hw0 : (0 : Int) < I.w := by exact_mod_cast I.wpos
  have hh0 : (0 : Int) < I.h := by exact_mod_cast I.hpos
  have hHe : H = (W * I.h) / I.w := Int.fdiv_eq_ediv _ (le_of_lt hw0)
  have hH0 : 0 ≤ H := by
    rw [hHe]
    exact Int.ediv_nonneg (by positivity) (le_of_lt hw0)
  have key1 : I.w * H ≤ W * I.h := by
    rw [hHe]
    calc (I.w : Int) * ((W * I.h) / I.w) = ((W * I.h) / I.w) * I.w := by ring
    _ ≤ W * I.h := Int.ediv_mul_le _ (ne_of_gt hw0)
  unfold pilThumbnail at hout
  by_cases c1 : (I.w : Int) ≤ W ∧ (I.h : Int) ≤ H
  · rw [if_pos c1] at hout
    simp only [outSize, Option.some.injEq, Prod.mk.injEq] at hout
    obtain ⟨hw, hh⟩ := hout
    subst hw hh
    exact ⟨le_refl _, le_refl _, c1.1⟩
  · rw [if_neg c1] at hout
    by_cases c2 : H = 0
    · rw [if_pos c2] at hout
      simp [outSize] at hout
    · rw [if_neg c2] at hout
      have hHpos : 0 < H := lt_of_le_of_ne hH0 (Ne.symm c2)
      have hWlt : W < I.w := by
        by_contra hcon
        push_neg at hcon
        apply c1
        refine ⟨hcon, ?_⟩
        rw [hHe, Int.le_ediv_iff_mul_le hw0]
        calc (I.h : Int) * I.w ≤ W * I.h := by nlinarith
        _ = W * I.h := rfl
      have hHlt : H < I.h := by
        rw [hHe, Int.ediv_lt_iff_lt_mul hw0]
        nlinarith
      have hcond : Rat.divInt I.w I.h ≤ Rat.divInt W H := by
        rw [Rat.divInt_le_divInt hh0 hHpos]
        nlinarith
      rw [if_pos hcond] at hout
      simp only [] at hout
      have hq : Rat.divInt (H * I.w) I.h ≤ ((W : Int) : ℚ) := by
        rw [Rat.intCast_eq_divInt, Rat.divInt_le_divInt hh0 one_pos]
        nlinarith
      have hxr_le : roundAspect (Rat.divInt (H * I.w) I.h)
          (fun n => ratAbs (Rat.divInt (I.w * H - n * I.h) (I.h * H))) ≤ W :=
        roundAspect_le _ _ W hW hq
      split at hout
      · rename_i c3
        simp only [outSize, Option.some.injEq, Prod.mk.injEq] at hout
        obtain ⟨hw, hh⟩ := hout
        subst hw hh
        refine ⟨le_refl _, le_refl _, ?_⟩
        rw [c3.1]
        exact hxr_le
      · rename_i c3
        obtain ⟨hw, hh⟩ := pilResize_outSize _ _ _ _ hout
        have hxr_pos := roundAspect_pos (Rat.divInt (H * I.w) I.h)
          (fun n => ratAbs (Rat.divInt (I.w * H - n * I.h) (I.h * H)))
        refine ⟨?_, ?_, ?_⟩
        · omega
        · omega
        · omega

/-- C8: in natural-ratio (thumbnail) mode, the output dimensions never
exceed the orientation-normalised source dimensions in either axis: the
source is only ever scaled down. -/
theorem c8_thumbnail_never_upscales (job : ConversionJob) (img : Img) (w h : Nat)
    (hnat : job.aspect_ratio_numerator = 0 ∨ job.aspect_ratio_denominator = 0)
    (hW : 0 < job.width)
    (hout : outSize (handle_image_conversion_job job (some img)) = some (w, h)) :
    w ≤ (exifTranspose img).w ∧ h ≤ (exifTranspose img).h := by
  have hb : (job.aspect_ratio_numerator != 0 && job.aspect_ratio_denominator != 0) = false := by
    rcases hnat with h1 | h1 <;> simp [h1]
  simp only [handle_image_conversion_job, resolveSize, hb, Bool.false_eq_true,
    if_false] at hout
  have hres := pilThumbnail_natural_bounds (exifTranspose img) job.width hW w h hout
  exact ⟨hres.1, hres.2.1⟩

/-- C8 witness: the spec's example — a 4000 × 3000 source, `W = 800`, no
aspect ratio — produces an 800 × 600 output, within the source bounds. -/
theorem c8_thumbnail_never_upscales_witness :
    outSize (handle_image_conversion_job ⟨800, 0, 0⟩ (some img4k)) = some (800, 600) ∧
      800 ≤ (exifTranspose img4k).w ∧ 600 ≤ (exifTranspose img4k).h :=
  ⟨by decide, c8_thumbnail_never_upscales ⟨800, 0, 0⟩ img4k 800 600 (Or.inl rfl)
    (by decide) (by decide)⟩

/-- C2 (amended): the output width never exceeds the requested width, and in
custom-ratio (crop-fit) mode it equals the requested width exactly; in
natural-ratio (thumbnail) mode it can be smaller (see the counterexample),
so "always exactly `W`" holds only for the crop-fit branch. -/
theorem c2_output_width (job : ConversionJob) (img : Img) (w h : Nat)
    (hW : 0 < job.width)
    (hout : outSize (handle_image_conversion_job job (some img)) = some (w, h)) :
    (w : Int) ≤ job.width ∧
      (job.aspect_ratio_numerator ≠ 0 → job.aspect_ratio_denominator ≠ 0 →
        (w : Int) = job.width) := by
  by_cases hb : (job.aspect_ratio_numerator != 0 && job.aspect_ratio_denominator != 0) = true
  · simp only [handle_image_conversion_job, resolveSize, hb, if_true] at hout
    have hres := pilFit_outSize _ _ _ _ hout
    rw [hres.1]
    exact ⟨le_refl _, fun _ _ => rfl⟩
  · have hb2 : (job.aspect_ratio_numerator != 0 && job.aspect_ratio_denominator != 0) = false := by
      simpa using hb
    simp only [handle_image_conversion_job, resolveSize, hb2, Bool.false_eq_true,
      if_false] at hout
    have hres := pilThumbnail_natural_bounds (exifTranspose img) job.width hW w h hout
    refine ⟨hres.2.2, fun hn hd => ?_⟩
    rw [Bool.and_eq_false_iff] at hb2
    rcases hb2 with h1 | h1 <;> simp [bne_iff_ne] at h1 <;> [exact absurd h1 hn; exact absurd h1 hd]

/-- C2 witness: the crop-fit example `W = 1024`, ratio `16/9` on a
4000 × 3000 source produces width exactly 1024. -/
theorem c2_output_width_witness :
    outSize (handle_image_conversion_job ⟨1024, 16, 9⟩ (some img4k)) = some (1024, 576) ∧
      ((1024 : Nat) : Int) = (1024 : Int) :=
  ⟨by decide, (c2_output_width ⟨1024, 16, 9⟩ img4k 1024 576 (by decide) (by decide)).2
    (by decide) (by decide)⟩

end BmaClientLib
